import Mathlib

/-!
Shallow embedding of the RD200M radon-sensor protocol engine
(rd200m.py, class RD200M): frame encoding (_send_cmd), checksum
validation and dispatch in the background receive loop
(__receive_thread_worker), measurement decoding
(_process_measurement_data), and the close()/reset() control paths.

Bytes are modelled as natural numbers; Python integer arithmetic is
exact, so intermediate values (in particular the checksum expression
0xFF - (cmd + size + data_sum), which Python never reduces modulo 256)
are modelled over the integers.  Python exceptions (ValueError from
bytearray construction, KeyError from the status-dictionary lookup)
are modelled as explicit error outcomes.  The float expression
float(str(integer) + "." + str(decimal)) * 37 is modelled exactly over
the rationals; the values relevant to the claims (e.g. 2.5 * 37) are
exactly representable in binary floating point as well.
-/

namespace RD200M

/-- Command constants of the class (rd200m.py lines 30-33). -/
def cmd_RESULT_QUERY : ℕ := 0x01

def cmd_RESET : ℕ := 0xA0

def cmd_SET_PERIOD : ℕ := 0xA1

/-- The status dictionary (rd200m.py lines 35-39), as an association list. -/
def statusTable : List (ℕ × String) :=
  [(0x00, "Measurement between power on and 200s"),
   (0x01, "Measurement between 200s and 1h"),
   (0x10, "WARNING: Measurement within 30m and count > 10"),
   (0x02, "Measurement after 1h"),
   (0xE0, "Detected vibrations, measurement maybe unreliable")]

/-- Python `n.bit_length()` for a (possibly negative) integer: the number of
bits needed for the absolute value; 0 for 0. -/
def bit_length (z : ℤ) : ℕ :=
  if z = 0 then 0 else z.natAbs.log2 + 1

/-- A Python value passed as the `data` argument of `_send_cmd`: either an
int, or a non-int object with the given truthiness (e.g. a nonempty string
is truthy, an empty string is falsy). -/
inductive PyVal where
  | int (z : ℤ)
  | other (truthy : Bool)
deriving DecidableEq, Repr

/-- Python truthiness of the optional `data` argument: None and 0 are falsy,
any other int is truthy, a non-int carries its own truthiness. -/
def pyTruthy : Option PyVal → Bool
  | none => false
  | some (.int z) => z ≠ 0
  | some (.other t) => t

/-- `bytearray([...])` / `bytearray.extend([...])`: every element must be an
integer in [0, 256), otherwise Python raises ValueError.  Returns the byte
list on success, none when the construction raises. -/
def toBytes : List ℤ → Option (List ℕ)
  | [] => some []
  | z :: zs =>
    if 0 ≤ z ∧ z < 256 then (toBytes zs).map (fun l => z.toNat :: l) else none

/-- Outcome of `_send_cmd`:
  - `sent bytes`: the frame was written to the serial port (returns True);
  - `refused`: the "Data must be of type integer" branch, logs a warning and
    returns False without writing;
  - `error`: an uncaught ValueError raised by bytearray construction
    (a byte value outside [0, 256)); nothing is written. -/
inductive SendResult where
  | sent (frame : List ℕ)
  | refused
  | error
deriving DecidableEq, Repr

/-- `_send_cmd(cmd, data)` (rd200m.py lines 135-162).
`cmdarray = bytearray([0x02, cmd])`; `if data:` (so `data` equal to None,
0 or a falsy non-int takes the no-operand branch); in the int branch
`size = (data.bit_length() + 7) // 8`, `checksum = 0xFF - (cmd + size + data)`
and the three values are appended; in the no-operand branch `size = 0`,
`checksum = 0xFF - (cmd + size)`.  The frame is then written to the port. -/
def _send_cmd (cmd : ℕ) (data : Option PyVal) : SendResult :=
  match toBytes [0x02, (cmd : ℤ)] with
  | none => .error
  | some pre =>
    if pyTruthy data then
      match data with
      | some (.int z) =>
        let size : ℕ := (bit_length z + 7) / 8
        let checksum : ℤ := 0xFF - ((cmd : ℤ) + size + z)
        match toBytes [(size : ℤ), z, checksum] with
        | some tail => .sent (pre ++ tail)
        | none => .error
      | _ => .refused
    else
      let checksum : ℤ := 0xFF - ((cmd : ℤ) + 0)
      match toBytes [0, checksum] with
      | some tail => .sent (pre ++ tail)
      | none => .error

/-- Checksum validation performed on a received frame
(rd200m.py lines 194-202): `cmd = response[1]`, `size = response[2]`,
`data = response[3:3+size]` (a Python slice, clamped at the end of the
list), `checksum = int.from_bytes(response[-1:])` (the last byte), and the
frame is accepted iff `checksum == 0xFF - (cmd + size + data_sum)` —
computed over exact integers, never reduced modulo 256.
Lists shorter than 3 never reach this computation at its call sites. -/
def checksumValidate (r : List ℕ) : Bool :=
  match r with
  | _b0 :: b1 :: b2 :: rest =>
    let data := rest.take b2
    let checksum : ℕ := (b2 :: rest).getLastD 0
    decide ((checksum : ℤ) = 0xFF - ((b1 : ℤ) + b2 + (data.sum : ℤ)))
  | _ => false

/-- The spec's checksum formula, stated in its own words:
0xFF - (command + size + sum(payload bytes)), reduced modulo 256 and
truncated to one byte.  Used only to compare against the code's
behaviour. -/
def specChecksum (cmd size : ℕ) (payload : List ℕ) : ℤ :=
  (0xFF - ((cmd : ℤ) + size + (payload.sum : ℤ))) % 256

/-- Number of characters of Python `str(n)` for a natural number:
1 for n < 10, otherwise one more than for n / 10.  Structural recursion
on a fuel argument (n itself always suffices, since the digit count of
n never exceeds n + 1). -/
def decDigitsAux : ℕ → ℕ → ℕ
  | 0, _ => 1
  | fuel + 1, n => if n < 10 then 1 else decDigitsAux fuel (n / 10) + 1

def decDigits (n : ℕ) : ℕ := decDigitsAux n n

/-- `float(str(integer) + "." + str(decimal))`, exactly: the decimal string
of `integer`, a dot, the decimal string of `decimal`, parsed as a number. -/
def concatFloat (integer decimal : ℕ) : ℚ :=
  (integer : ℚ) + (decimal : ℚ) / (10 : ℚ) ^ decDigits decimal

/-- Outcome of one loop iteration of the receive worker for one read:
  - `sink q`: `_process_measurement_data` ran and invoked the callback
    with radon value `q`;
  - `dropped`: the read was discarded (short read, checksum mismatch,
    unknown command, or payload length different from 4) and the loop
    continues;
  - `crash`: an uncaught exception (the KeyError raised by
    `self.status[status]` for a status byte absent from the dictionary)
    kills the receive thread. -/
inductive StepResult where
  | sink (radon : ℚ)
  | dropped
  | crash
deriving DecidableEq, Repr

/-- `_process_measurement_data(data)` (rd200m.py lines 164-185).
Rejects payloads whose length is not 4 (returns False, no callback).
Otherwise computes `radon = float(str(integer) + "." + str(decimal)) * 37`,
then evaluates `self.status[status]` inside the log call — which raises
KeyError when the status byte is not a key of the dictionary, before the
callback is invoked; with a known status the callback receives `radon`. -/
def _process_measurement_data (data : List ℕ) : StepResult :=
  match data with
  | [status, _minutes, integer, decimal] =>
    let radon : ℚ := concatFloat integer decimal * 37
    match statusTable.lookup status with
    | some _ => .sink radon
    | none => .crash
  | _ => .dropped

/-- One iteration of `__receive_thread_worker` (rd200m.py lines 190-208)
for one value returned by `self.__serial.read(size=8)`: reads of length
other than 8 are ignored; on a full frame the checksum is validated,
non-RESULT_RETURN commands are logged and dropped, and RESULT_RETURN
payloads `response[3:3+size]` go to `_process_measurement_data`. -/
def stepRead (response : List ℕ) : StepResult :=
  if response.length = 8 then
    if checksumValidate response then
      match response with
      | _ :: cmd :: size :: rest =>
        if cmd = 0x10 then _process_measurement_data (rest.take size)
        else .dropped
      | _ => .dropped
    else .dropped
  else .dropped

/-- The receive loop over a sequence of serial reads: accumulates the
callback invocations in order; an uncaught exception terminates the
thread, abandoning the remaining reads.  The boolean records whether the
thread died by exception.  No bytes are carried over between reads. -/
def runWorker : List (List ℕ) → List ℚ × Bool
  | [] => ([], false)
  | r :: rs =>
    match stepRead r with
    | .sink q => let (qs, c) := runWorker rs; (q :: qs, c)
    | .dropped => runWorker rs
    | .crash => ([], true)

/-- The observable actions performed by `close()`, in program order. -/
inductive CloseAction where
  | setRunningFalse
  | closeSerial
  | joinThread
deriving DecidableEq, Repr

/-- `close()` (rd200m.py lines 118-133) as the ordered trace of its
side-effecting statements, parameterised by the branch conditions:
`self._running = False`; then `self.__serial.close()` if the port is open;
then `self.__receive_thread.join()` if the receive thread exists and is
alive. -/
def close (isOpen threadAlive : Bool) : List CloseAction :=
  .setRunningFalse ::
    ((if isOpen then [.closeSerial] else []) ++
     (if threadAlive then [.joinThread] else []))

/-- `reset(period)` (rd200m.py lines 80-94), up to its first sleep:
`if period:` (so None and 0 both leave `self.period` unchanged) then
`self.period = period`; then `_send_cmd(cmd_SET_PERIOD, self.period)`.
Returns the new value of `self.period` and the result of that send.
The following statement `time.sleep(1)` raises NameError (the module
never imports `time`), so `_send_cmd(cmd_RESET)` is unreachable; that
crash is identical on every path through `reset` and is omitted here. -/
def reset (period : Option ℤ) (selfPeriod : ℤ) : ℤ × SendResult :=
  let newPeriod :=
    match period with
    | some z => if z ≠ 0 then z else selfPeriod
    | none => selfPeriod
  (newPeriod, _send_cmd cmd_SET_PERIOD (some (.int newPeriod)))

/-! ### Helper lemmas -/

lemma toBytes_cons (z : ℤ) (zs : List ℤ) :
    toBytes (z :: zs) =
      if 0 ≤ z ∧ z < 256 then (toBytes zs).map (fun l => z.toNat :: l)
      else none := rfl

/-- A successful bytearray construction means every element was in
[0, 256) and the bytes are the elements themselves. -/
lemma toBytes_eq_some :
    ∀ {zs : List ℤ} {l : List ℕ}, toBytes zs = some l →
      (∀ z ∈ zs, 0 ≤ z ∧ z < 256) ∧ l = zs.map Int.toNat := by
  intro zs
  induction zs with
  | nil =>
    intro l h
    have hl : l = [] := by
      have h' := h.symm
      rw [show toBytes [] = some [] from rfl] at h'
      exact (Option.some.injEq _ _).mp h'
    subst hl
    simp
  | cons z zs ih =>
    intro l h
    rw [toBytes_cons] at h
    by_cases hz : 0 ≤ z ∧ z < 256
    · rw [if_pos hz] at h
      cases htl : toBytes zs with
      | none => rw [htl] at h; simp at h
      | some tl =>
        rw [htl] at h
        simp at h
        obtain ⟨hmem, htl'⟩ := ih htl
        refine ⟨?_, ?_⟩
        · intro w hw
          rcases List.mem_cons.mp hw with hw | hw
          · exact hw ▸ hz
          · exact hmem w hw
        · simp [← h, htl']
    · rw [if_neg hz] at h
      exact absurd h (by simp)

/-- Conversely, if every element is in [0, 256) the construction succeeds. -/
lemma toBytes_of_mem :
    ∀ {zs : List ℤ}, (∀ z ∈ zs, 0 ≤ z ∧ z < 256) →
      toBytes zs = some (zs.map Int.toNat) := by
  intro zs
  induction zs with
  | nil => intro _; rfl
  | cons z zs ih =>
    intro h
    rw [toBytes_cons, if_pos (h z (by simp)), ih (fun w hw => h w (by simp [hw]))]
    rfl

/-- `_send_cmd` with a command byte above 255 raises in the initial
bytearray construction. -/
lemma send_cmd_big {cmd : ℕ} (data : Option PyVal) (hc : 255 < cmd) :
    _send_cmd cmd data = .error := by
  have hnone : toBytes [0x02, (cmd : ℤ)] = none := by
    rw [toBytes_cons, if_pos (by omega : (0 : ℤ) ≤ 0x02 ∧ (0x02 : ℤ) < 256),
        toBytes_cons, if_neg (by push_neg; intro _; omega)]
    rfl
  unfold _send_cmd
  rw [hnone]

/-- For 1 ≤ z ≤ 255 the Python size expression (z.bit_length() + 7) // 8
evaluates to 1. -/
lemma size_one {z : ℤ} (h1 : 1 ≤ z) (h2 : z ≤ 255) :
    (bit_length z + 7) / 8 = 1 := by
  have hz : z ≠ 0 := by omega
  have habs : z.natAbs ≠ 0 := by
    simpa [Int.natAbs_eq_zero] using hz
  have hlt : z.natAbs < 2 ^ 8 := by
    have : z.natAbs ≤ 255 := by omega
    omega
  have hlog : z.natAbs.log2 < 8 := (Nat.log2_lt habs).mpr hlt
  simp only [bit_length, hz, if_false]
  omega

lemma cmd_bytes {cmd : ℕ} (hc : cmd ≤ 255) :
    toBytes [0x02, (cmd : ℤ)] = some [2, cmd] := by
  have hmem : ∀ z ∈ [0x02, (cmd : ℤ)], 0 ≤ z ∧ z < 256 := by
    intro z hz
    rcases List.mem_cons.mp hz with h | h
    · subst h; omega
    · simp at h
      subst h
      omega
  simpa using toBytes_of_mem hmem

/-- On a falsy data argument (None, int 0, falsy non-int) `_send_cmd`
takes the no-operand branch and writes [0x02, cmd, 0x00, 0xFF - cmd]. -/
lemma send_not_truthy {cmd : ℕ} (data : Option PyVal)
    (ht : pyTruthy data = false) (hc : cmd ≤ 255) :
    _send_cmd cmd data = .sent [2, cmd, 0, 255 - cmd] := by
  have htail : toBytes [0, 0xFF - ((cmd : ℤ) + 0)] =
      some [0, (0xFF - ((cmd : ℤ) + 0)).toNat] := by
    have hmem : ∀ z ∈ [0, 0xFF - ((cmd : ℤ) + 0)], 0 ≤ z ∧ z < 256 := by
      intro z hz
      rcases List.mem_cons.mp hz with h | h
      · subst h; omega
      · simp at h
        subst h
        omega
    simpa using toBytes_of_mem hmem
  have hnat : (0xFF - ((cmd : ℤ) + 0)).toNat = 255 - cmd := by omega
  have hstep : ∀ d : Option PyVal, pyTruthy d = false →
      _send_cmd cmd d =
        (match toBytes [0, 0xFF - ((cmd : ℤ) + 0)] with
         | some tail => SendResult.sent ([2, cmd] ++ tail)
         | none => SendResult.error) := by
    intro d hd
    match d, hd with
    | none, _ =>
      unfold _send_cmd
      rw [cmd_bytes hc]
      rfl
    | some (.int z), hd =>
      have hz : z = 0 := by simpa [pyTruthy] using hd
      subst hz
      unfold _send_cmd
      rw [cmd_bytes hc]
      rfl
    | some (.other t), hd =>
      have hz : t = false := by simpa [pyTruthy] using hd
      subst hz
      unfold _send_cmd
      rw [cmd_bytes hc]
      rfl
  rw [hstep data ht, htail, hnat]
  rfl

set_option maxRecDepth 8000 in
/-- Every frame actually written by `_send_cmd` is either the 4-byte
no-operand frame or the 5-byte one-operand frame with in-range fields. -/
lemma sent_shape {cmd : ℕ} {data : Option PyVal} {f : List ℕ}
    (h : _send_cmd cmd data = .sent f) :
    cmd ≤ 255 ∧
      (f = [2, cmd, 0, 255 - cmd] ∨
        ∃ op : ℕ, 1 ≤ op ∧ op ≤ 255 ∧ cmd + 1 + op ≤ 255 ∧
          f = [2, cmd, 1, op, 255 - (cmd + 1 + op)]) := by
  by_cases hc : cmd ≤ 255
  · refine ⟨hc, ?_⟩
    by_cases ht : pyTruthy data = true
    · match data, ht with
      | some (.int z), ht =>
        right
        have hz : z ≠ 0 := by simpa [pyTruthy] using ht
        have hstep : _send_cmd cmd (some (.int z)) =
            (match toBytes [(((bit_length z + 7) / 8 : ℕ) : ℤ), z,
                0xFF - ((cmd : ℤ) + ((bit_length z + 7) / 8 : ℕ) + z)] with
             | some tail => SendResult.sent ([2, cmd] ++ tail)
             | none => SendResult.error) := by
          unfold _send_cmd
          rw [cmd_bytes hc, ht]
          rfl
        rw [hstep] at h
        cases htl : toBytes [(((bit_length z + 7) / 8 : ℕ) : ℤ), z,
            0xFF - ((cmd : ℤ) + ((bit_length z + 7) / 8 : ℕ) + z)] with
        | none =>
          rw [htl] at h
          exact absurd h (by simp)
        | some tail =>
          rw [htl] at h
          simp only [SendResult.sent.injEq] at h
          obtain ⟨hmem, htail⟩ := toBytes_eq_some htl
          have hzb : 0 ≤ z ∧ z < 256 := hmem z (by simp)
          have hz1 : 1 ≤ z := by omega
          have hz255 : z ≤ 255 := by omega
          have hsize : (bit_length z + 7) / 8 = 1 := size_one hz1 hz255
          have hchk : 0 ≤ 0xFF - ((cmd : ℤ) + ((bit_length z + 7) / 8 : ℕ) + z) :=
            (hmem _ (by simp)).1
          rw [hsize] at hchk
          refine ⟨z.toNat, by omega, by omega, by omega, ?_⟩
          rw [← h, htail, hsize]
          have h2 : ((255 : ℤ) - ((cmd : ℤ) + 1 + z)).toNat =
              255 - (cmd + 1 + z.toNat) := by omega
          simp [h2]
      | some (.other t), ht =>
        exfalso
        have htt : t = true := by simpa [pyTruthy] using ht
        subst htt
        have hstep : _send_cmd cmd (some (.other true)) = .refused := by
          unfold _send_cmd
          rw [cmd_bytes hc]
          rfl
        rw [hstep] at h
        exact SendResult.noConfusion h
      | none, ht => simp [pyTruthy] at ht
    · left
      rw [send_not_truthy data (by simpa using ht) hc] at h
      simpa using h.symm
  · exfalso
    rw [send_cmd_big data (by omega)] at h
    exact SendResult.noConfusion h

/-- Definitional computation of `checksumValidate` on a list with at
least three elements. -/
lemma checksumValidate_cons (b0 b1 b2 : ℕ) (rest : List ℕ) :
    checksumValidate (b0 :: b1 :: b2 :: rest) =
      decide ((((b2 :: rest).getLastD 0 : ℕ) : ℤ) =
        0xFF - ((b1 : ℤ) + b2 + ((rest.take b2).sum : ℤ))) := rfl

set_option maxRecDepth 8000 in
/-- `_send_cmd` on an in-range nonzero integer operand whose checksum
byte is nonnegative writes the 5-byte frame. -/
lemma send_int_small {cmd op : ℕ} (hc : cmd ≤ 255) (h1 : 1 ≤ op)
    (h255 : op ≤ 255) (hsum : cmd + 1 + op ≤ 255) :
    _send_cmd cmd (some (.int (op : ℤ))) =
      .sent [2, cmd, 1, op, 255 - (cmd + 1 + op)] := by
  have ht : pyTruthy (some (.int (op : ℤ))) = true := by
    simp [pyTruthy]
    omega
  have hstep : _send_cmd cmd (some (.int (op : ℤ))) =
      (match toBytes [(((bit_length (op : ℤ) + 7) / 8 : ℕ) : ℤ), (op : ℤ),
          0xFF - ((cmd : ℤ) + ((bit_length (op : ℤ) + 7) / 8 : ℕ) + (op : ℤ))] with
       | some tail => SendResult.sent ([2, cmd] ++ tail)
       | none => SendResult.error) := by
    unfold _send_cmd
    rw [cmd_bytes hc, ht]
    rfl
  have hsize : (bit_length (op : ℤ) + 7) / 8 = 1 :=
    size_one (by omega) (by omega)
  rw [hstep, hsize]
  have htl : toBytes [((1 : ℕ) : ℤ), (op : ℤ),
      0xFF - ((cmd : ℤ) + ((1 : ℕ) : ℤ) + (op : ℤ))] =
      some ([((1 : ℕ) : ℤ), (op : ℤ),
        0xFF - ((cmd : ℤ) + ((1 : ℕ) : ℤ) + (op : ℤ))].map Int.toNat) := by
    apply toBytes_of_mem
    intro z hz
    rcases List.mem_cons.mp hz with h | h
    · subst h; omega
    rcases List.mem_cons.mp h with h | h
    · subst h; constructor <;> omega
    simp at h
    subst h
    constructor <;> omega
  rw [htl]
  have h2 : ((255 : ℤ) - ((cmd : ℤ) + 1 + (op : ℤ))).toNat =
      255 - (cmd + 1 + op) := by omega
  simp [h2]

set_option maxRecDepth 8000 in
/-- `_send_cmd` on a negative or over-255 integer operand raises
ValueError in the bytearray extension. -/
lemma send_int_out_of_range {cmd : ℕ} {z : ℤ} (hc : cmd ≤ 255)
    (hz : z ≠ 0) (hbad : z < 0 ∨ 255 < z) :
    _send_cmd cmd (some (.int z)) = .error := by
  have ht : pyTruthy (some (.int z)) = true := by simp [pyTruthy, hz]
  have hstep : _send_cmd cmd (some (.int z)) =
      (match toBytes [(((bit_length z + 7) / 8 : ℕ) : ℤ), z,
          0xFF - ((cmd : ℤ) + ((bit_length z + 7) / 8 : ℕ) + z)] with
       | some tail => SendResult.sent ([2, cmd] ++ tail)
       | none => SendResult.error) := by
    unfold _send_cmd
    rw [cmd_bytes hc, ht]
    rfl
  have hznone : toBytes [z,
      0xFF - ((cmd : ℤ) + ((bit_length z + 7) / 8 : ℕ) + z)] = none := by
    rw [toBytes_cons, if_neg (by omega)]
  rw [hstep, toBytes_cons]
  by_cases hs : 0 ≤ (((bit_length z + 7) / 8 : ℕ) : ℤ) ∧
      (((bit_length z + 7) / 8 : ℕ) : ℤ) < 256
  · rw [if_pos hs, hznone]
    rfl
  · rw [if_neg hs]

set_option maxRecDepth 8000 in
/-- `_send_cmd` on an in-range operand whose checksum would be negative
(cmd + 1 + op > 255) raises ValueError in the bytearray extension. -/
lemma send_int_checksum_neg {cmd op : ℕ} (hc : cmd ≤ 255) (h1 : 1 ≤ op)
    (h255 : op ≤ 255) (hsum : 255 < cmd + 1 + op) :
    _send_cmd cmd (some (.int (op : ℤ))) = .error := by
  have ht : pyTruthy (some (.int (op : ℤ))) = true := by
    simp [pyTruthy]
    omega
  have hstep : _send_cmd cmd (some (.int (op : ℤ))) =
      (match toBytes [(((bit_length (op : ℤ) + 7) / 8 : ℕ) : ℤ), (op : ℤ),
          0xFF - ((cmd : ℤ) + ((bit_length (op : ℤ) + 7) / 8 : ℕ) + (op : ℤ))] with
       | some tail => SendResult.sent ([2, cmd] ++ tail)
       | none => SendResult.error) := by
    unfold _send_cmd
    rw [cmd_bytes hc, ht]
    rfl
  have hsize : (bit_length (op : ℤ) + 7) / 8 = 1 :=
    size_one (by omega) (by omega)
  rw [hstep, hsize, toBytes_cons, if_pos (by constructor <;> omega),
      toBytes_cons, if_pos (by constructor <;> omega),
      toBytes_cons, if_neg (by omega)]
  rfl

set_option maxRecDepth 8000 in
/-- `_send_cmd` on a truthy non-integer operand takes the warning branch
and returns False. -/
lemma send_other_true {cmd : ℕ} (hc : cmd ≤ 255) :
    _send_cmd cmd (some (.other true)) = .refused := by
  unfold _send_cmd
  rw [cmd_bytes hc]
  rfl

/-! ### Claim theorems -/

/-- C10: calling `reset` with period argument 0 behaves exactly like
calling `reset` with no period argument: `if period:` is false for both
None and 0, so the session's configured period field is left unchanged
and SET_PERIOD is sent with the previously configured period. -/
theorem reset_zero_period_like_none (p : ℤ) :
    reset (some 0) p = reset none p := rfl

/-- C2 (code bug): evaluation of the receive loop on seven consecutive
reads: a 7-byte short read, an 8-byte frame with a bad checksum, a
validated frame with an unknown command byte 0x11, a validated
RESULT_RETURN frame with size byte 2 (payload length 2, not 4), a
validated RESULT_RETURN frame with known status 0x00 (radon 2.5 pCi/L =
92.5 Bq/m3), a validated RESULT_RETURN frame with unknown status byte
0x03, and a final validated RESULT_RETURN frame with known status.
The claim says the sink is invoked exactly once per read that is a full
valid-checksum RESULT_RETURN frame with a 4-byte payload and that every
other read is dropped without stopping the loop.  The code instead
raises KeyError at `self.status[status]` on the sixth read (a full,
validated, RESULT_RETURN, 4-byte-payload frame whose status byte is not
in the status dictionary): the sink is not invoked for it, the receive
thread dies, and the seventh (valid) frame is never processed — the
result is one single sink invocation and a crashed loop, not three
ordered invocations. -/
theorem receive_loop_unknown_status_kills_thread :
    runWorker
      [[0x02, 0x10, 0x04, 0x00, 0x00, 0x02, 0x05],
       [0x02, 0x10, 0x04, 0x00, 0x00, 0x02, 0x05, 0x00],
       [0x02, 0x11, 0x04, 0x00, 0x00, 0x02, 0x05, 0xE3],
       [0x02, 0x10, 0x02, 0x01, 0x02, 0x00, 0x00, 0xEA],
       [0x02, 0x10, 0x04, 0x00, 0x00, 0x02, 0x05, 0xE4],
       [0x02, 0x10, 0x04, 0x03, 0x00, 0x02, 0x05, 0xE1],
       [0x02, 0x10, 0x04, 0x00, 0x00, 0x02, 0x05, 0xE4]] =
      ([92.5], true) := by
  simp [runWorker, stepRead, checksumValidate, _process_measurement_data,
    statusTable, concatFloat, decDigits, decDigitsAux, List.lookup]
  norm_num

/-- C7 (code bug): the frame [0x02, 0x10, 0x04, 0x03, 0x00, 0x02, 0x05,
0xE1] is 8 bytes, passes checksum validation and carries command
RESULT_RETURN with a 4-byte payload whose status byte 0x03 is not in
{0x00, 0x01, 0x02, 0x10, 0xE0}; instead of decoding the value and
reporting the status as unknown, `_process_measurement_data` raises
KeyError at `self.status[status]` and the callback never receives the
radon value. -/
theorem unknown_status_frame_crashes :
    checksumValidate [0x02, 0x10, 0x04, 0x03, 0x00, 0x02, 0x05, 0xE1] = true ∧
      stepRead [0x02, 0x10, 0x04, 0x03, 0x00, 0x02, 0x05, 0xE1] =
        .crash := by decide

/-- C3 counterexample: the claim asserts that for EVERY status byte,
decode([status, minutes, 2, 5]) yields radon 92.5; but for status byte
0x05 (not a key of the status dictionary) `_process_measurement_data`
raises KeyError before invoking the callback, so no radon value is
delivered at all. -/
theorem decode_unknown_status_crashes :
    _process_measurement_data [0x05, 0x00, 0x02, 0x05] = .crash := by decide

/-- C3 (amended): for every 4-byte payload [status, minutes, integer,
decimal] whose status byte is a key of the status dictionary, decode
delivers the radon value obtained by concatenating the decimal string
representations of the integer byte and the decimal byte as
integer.decimal and multiplying by 37; in particular [status, minutes,
2, 5] yields 2.5 * 37 = 92.5. -/
theorem decode_known_status_radon (status minutes integer decimal : ℕ)
    (h : (statusTable.lookup status).isSome = true) :
    _process_measurement_data [status, minutes, integer, decimal] =
      .sink (concatFloat integer decimal * 37) ∧
      concatFloat 2 5 * 37 = 92.5 := by
  constructor
  · obtain ⟨s, hl⟩ := Option.isSome_iff_exists.mp h
    unfold _process_measurement_data
    show (match statusTable.lookup status with
          | some _ => StepResult.sink (concatFloat integer decimal * 37)
          | none => StepResult.crash) =
        StepResult.sink (concatFloat integer decimal * 37)
    rw [hl]
  · norm_num [concatFloat, decDigits, decDigitsAux]

theorem decode_known_status_radon_witness :
    _process_measurement_data [0x00, 0x07, 0x02, 0x05] =
      .sink (concatFloat 2 5 * 37) ∧ concatFloat 2 5 * 37 = 92.5 :=
  decode_known_status_radon 0x00 0x07 0x02 0x05 (by decide)

/-- C9 counterexample: in the trace of `close()` with the port open and
the receive thread alive, the serial port is closed at index 1, BEFORE
the thread is joined at index 2 — not "only after the background task
has been joined" as the claim states, so the blocked read does observe
a closed handle. -/
theorem close_port_before_join :
    close true true =
      [.setRunningFalse, .closeSerial, .joinThread] ∧
      (close true true).indexOf CloseAction.closeSerial <
        (close true true).indexOf CloseAction.joinThread := by decide

/-- C9 (amended): `close()` first signals the background loop to stop
(the running flag is cleared before anything else), then closes the
serial port if it is open, and only then joins the receive thread if it
is alive, so it returns only after the joined thread has terminated;
the port close precedes the join (it is what unblocks a pending
blocking read) rather than happening only after the join. -/
theorem close_action_order (isOpen threadAlive : Bool) :
    (close isOpen threadAlive).head? = some .setRunningFalse ∧
      (threadAlive = true →
        (close isOpen threadAlive).getLast? = some .joinThread) ∧
      (isOpen = true → threadAlive = true →
        (close isOpen threadAlive).indexOf CloseAction.closeSerial <
          (close isOpen threadAlive).indexOf CloseAction.joinThread) := by
  cases isOpen <;> cases threadAlive <;> refine ⟨rfl, ?_, ?_⟩ <;> decide

theorem close_action_order_witness :
    (close true true).getLast? = some CloseAction.joinThread ∧
      (close true true).indexOf CloseAction.closeSerial <
        (close true true).indexOf CloseAction.joinThread :=
  ⟨(close_action_order true true).2.1 rfl,
   (close_action_order true true).2.2 rfl rfl⟩

/-- C6: every frame actually written by `_send_cmd` (4-byte no-operand
frame or 5-byte operand frame) passes the checksum validation that the
receive path applies to frames: validate(encode(c, op)) is true whenever
the encoder produces a frame at all. -/
theorem validate_encode_roundtrip (cmd : ℕ) (data : Option PyVal)
    (f : List ℕ) (h : _send_cmd cmd data = .sent f) :
    checksumValidate f = true := by
  obtain ⟨hc, hshape⟩ := sent_shape h
  rcases hshape with rfl | ⟨op, h1, h255, hsum, rfl⟩
  · rw [checksumValidate_cons]
    apply decide_eq_true
    have : ([(0 : ℕ), 255 - cmd].getLastD 0) = 255 - cmd := rfl
    rw [this]
    push_cast [hc]
    simp
  · rw [checksumValidate_cons]
    apply decide_eq_true
    have : ([(1 : ℕ), op, 255 - (cmd + 1 + op)].getLastD 0) =
        255 - (cmd + 1 + op) := rfl
    rw [this, show ([op, 255 - (cmd + 1 + op)].take 1) = [op] from rfl]
    push_cast [hsum]
    simp

theorem validate_encode_roundtrip_witness :
    checksumValidate [0x02, 0xA1, 0x01, 0x0A, 0x53] = true :=
  validate_encode_roundtrip 0xA1 (some (.int ((10 : ℕ) : ℤ)))
    [0x02, 0xA1, 0x01, 0x0A, 0x53]
    ((send_int_small (by omega) (by omega) (by omega) (by omega)).trans
      (by norm_num))

/-- C1: (receive side) an 8-byte frame is accepted by the checksum check
only if its trailing byte equals the spec's value
(0xFF - (command + size + sum(payload))) mod 256 truncated to one byte,
where the payload is the slice response[3:3+size]; (send side) the
checksum byte of every frame `_send_cmd` actually writes equals the
spec's formula applied to that frame's command byte, size byte and
payload bytes. -/
theorem checksum_matches_spec :
    (∀ b0 b1 b2 b3 b4 b5 b6 b7 : ℕ,
        checksumValidate [b0, b1, b2, b3, b4, b5, b6, b7] = true →
        (b7 : ℤ) = specChecksum b1 b2 ([b3, b4, b5, b6, b7].take b2)) ∧
    (∀ (cmd : ℕ) (data : Option PyVal) (f : List ℕ),
        _send_cmd cmd data = .sent f →
        ((f.getLastD 0 : ℕ) : ℤ) =
          specChecksum (f.getD 1 0) (f.getD 2 0) ((f.drop 3).dropLast)) := by
  constructor
  · intro b0 b1 b2 b3 b4 b5 b6 b7 h
    rw [checksumValidate_cons] at h
    have h' : (([b2, b3, b4, b5, b6, b7].getLastD 0 : ℕ) : ℤ) =
        0xFF - ((b1 : ℤ) + b2 + ((([b3, b4, b5, b6, b7].take b2)).sum : ℤ)) :=
      of_decide_eq_true h
    rw [show ([b2, b3, b4, b5, b6, b7].getLastD 0) = b7 from rfl] at h'
    unfold specChecksum
    generalize hS : ([b3, b4, b5, b6, b7].take b2).sum = S at h' ⊢
    omega
  · intro cmd data f h
    obtain ⟨hc, hshape⟩ := sent_shape h
    rcases hshape with rfl | ⟨op, h1, h255, hsum, rfl⟩
    · show ((255 - cmd : ℕ) : ℤ) = specChecksum cmd 0 []
      unfold specChecksum
      simp only [List.sum_nil]
      omega
    · show ((255 - (cmd + 1 + op) : ℕ) : ℤ) = specChecksum cmd 1 [op]
      unfold specChecksum
      simp only [List.sum_cons, List.sum_nil]
      push_cast
      omega

theorem checksum_matches_spec_witness :
    ((0xE4 : ℕ) : ℤ) =
      specChecksum 0x10 0x04 ([0, 0, 2, 5, 0xE4].take 0x04) ∧
      ((([0x02, 0xA1, 0x00, 0x5E] : List ℕ).getLastD 0 : ℕ) : ℤ) =
        specChecksum (([0x02, 0xA1, 0x00, 0x5E] : List ℕ).getD 1 0)
          (([0x02, 0xA1, 0x00, 0x5E] : List ℕ).getD 2 0)
          ((([0x02, 0xA1, 0x00, 0x5E] : List ℕ).drop 3).dropLast) :=
  ⟨checksum_matches_spec.1 2 0x10 4 0 0 2 5 0xE4 (by decide),
   checksum_matches_spec.2 0xA1 none [0x02, 0xA1, 0x00, 0x5E]
     ((send_not_truthy none rfl (by omega)).trans (by norm_num))⟩

/-- C4 counterexample: the claim says an operand value 0 produces the
frame [0x02, command, size, operand, checksum] containing an operand
byte.  In the code `if data:` is false for the integer 0, so the
encoder takes the no-operand branch: the produced frame is the 4-byte
[0x02, 0xA1, 0x00, 0x5E] and not a 5-byte frame carrying the operand
byte.  Moreover for an in-range operand (100, with command 0xA1) whose
checksum 0xFF - (0xA1 + 1 + 100) is negative, no frame is produced at
all: bytearray.extend raises ValueError. -/
theorem encode_frames_counterexample :
    _send_cmd 0xA1 (some (.int 0)) = .sent [0x02, 0xA1, 0x00, 0x5E] ∧
      _send_cmd 0xA1 (some (.int 0)) ≠
        .sent [0x02, 0xA1, 0x00, 0x00, 0x5E] ∧
      _send_cmd 0xA1 (some (.int 100)) = .error := by
  have h0 : _send_cmd 0xA1 (some (.int 0)) = .sent [0x02, 0xA1, 0x00, 0x5E] :=
    (send_not_truthy (some (.int 0)) rfl (by omega)).trans (by norm_num)
  refine ⟨h0, by rw [h0]; simp, ?_⟩
  show _send_cmd 0xA1 (some (.int ((100 : ℕ) : ℤ))) = .error
  exact send_int_checksum_neg (by omega) (by omega) (by omega) (by omega)

/-- C4 (amended): `_send_cmd(command, operand)` with command ≤ 0xFF:
when the operand is absent OR equal to 0 (a falsy int), the produced
frame is exactly [0x02, command, 0x00, 0xFF - command]; when an operand
in 1-255 is present and command + 1 + operand ≤ 0xFF, the size byte is
1 (the minimal byte-count for a value in 1-255) and the frame is
exactly [0x02, command, 1, operand, 0xFF - (command + 1 + operand)];
when command + 1 + operand > 0xFF the checksum expression is negative,
bytearray.extend raises ValueError and no frame is produced. -/
theorem encode_frames :
    (∀ cmd : ℕ, cmd ≤ 255 →
        _send_cmd cmd none = .sent [2, cmd, 0, 255 - cmd]) ∧
    (∀ cmd : ℕ, cmd ≤ 255 →
        _send_cmd cmd (some (.int 0)) = .sent [2, cmd, 0, 255 - cmd]) ∧
    (∀ cmd op : ℕ, cmd ≤ 255 → 1 ≤ op → op ≤ 255 → cmd + 1 + op ≤ 255 →
        _send_cmd cmd (some (.int (op : ℤ))) =
          .sent [2, cmd, 1, op, 255 - (cmd + 1 + op)]) ∧
    (∀ cmd op : ℕ, cmd ≤ 255 → 1 ≤ op → op ≤ 255 → 255 < cmd + 1 + op →
        _send_cmd cmd (some (.int (op : ℤ))) = .error) :=
  ⟨fun _ hc => send_not_truthy none rfl hc,
   fun _ hc => send_not_truthy (some (.int 0)) rfl hc,
   fun _ _ hc h1 h255 hsum => send_int_small hc h1 h255 hsum,
   fun _ _ hc h1 h255 hsum => send_int_checksum_neg hc h1 h255 hsum⟩

theorem encode_frames_witness :
    _send_cmd 0xA0 none = .sent [0x02, 0xA0, 0x00, 0x5F] ∧
      _send_cmd 0xA1 (some (.int ((10 : ℕ) : ℤ))) =
        .sent [0x02, 0xA1, 0x01, 0x0A, 0x53] ∧
      _send_cmd 0xA1 (some (.int ((200 : ℕ) : ℤ))) = .error :=
  ⟨(encode_frames.1 0xA0 (by omega)).trans (by norm_num),
   (encode_frames.2.2.1 0xA1 10 (by omega) (by omega) (by omega)
      (by omega)).trans (by norm_num),
   encode_frames.2.2.2 0xA1 200 (by omega) (by omega) (by omega) (by omega)⟩

/-- C8 counterexample: the claim says any operand that is not a
non-negative integer byte value makes the encoder return an error
result without writing, never an unhandled crash and never a silent
drop.  In the code a negative integer operand (-5) reaches
bytearray.extend, which raises an uncaught ValueError — a crash, not
the returned-False error path; and a falsy non-integer operand (e.g.
the empty string) is silently treated as absent: the no-operand frame
IS written to the serial port and no error is reported at all. -/
theorem invalid_operand_counterexample :
    _send_cmd 0xA1 (some (.int (-5))) = .error ∧
      _send_cmd 0xA1 (some (.other false)) =
        .sent [0x02, 0xA1, 0x00, 0x5E] :=
  ⟨send_int_out_of_range (by omega) (by omega) (Or.inl (by omega)),
   (send_not_truthy (some (.other false)) rfl (by omega)).trans
     (by norm_num)⟩

/-- C8 (amended): for a command byte ≤ 0xFF, a truthy non-integer
operand makes `_send_cmd` log a warning and return False without
writing; a falsy non-integer operand is silently treated as absent and
the no-operand frame is written; a negative or greater-than-255 integer
operand makes bytearray construction raise an uncaught ValueError and
nothing is written to the serial channel. -/
theorem invalid_operand_outcomes :
    (∀ cmd : ℕ, cmd ≤ 255 →
        _send_cmd cmd (some (.other true)) = .refused) ∧
    (∀ cmd : ℕ, cmd ≤ 255 →
        _send_cmd cmd (some (.other false)) = .sent [2, cmd, 0, 255 - cmd]) ∧
    (∀ (cmd : ℕ) (z : ℤ), cmd ≤ 255 → z < 0 →
        _send_cmd cmd (some (.int z)) = .error) ∧
    (∀ (cmd : ℕ) (z : ℤ), cmd ≤ 255 → 255 < z →
        _send_cmd cmd (some (.int z)) = .error) :=
  ⟨fun _ hc => send_other_true hc,
   fun _ hc => send_not_truthy (some (.other false)) rfl hc,
   fun _ _ hc hz => send_int_out_of_range hc (by omega) (Or.inl hz),
   fun _ _ hc hz => send_int_out_of_range hc (by omega) (Or.inr hz)⟩

theorem invalid_operand_outcomes_witness :
    _send_cmd 0x01 (some (.other true)) = .refused ∧
      _send_cmd 0x01 (some (.int (-3))) = .error ∧
      _send_cmd 0x01 (some (.int 300)) = .error :=
  ⟨invalid_operand_outcomes.1 0x01 (by omega),
   invalid_operand_outcomes.2.2.1 0x01 (-3) (by omega) (by omega),
   invalid_operand_outcomes.2.2.2 0x01 300 (by omega) (by omega)⟩

/-- C5 counterexample: the claim says changing ANY single byte of a
valid frame (except a change that re-derives a coincidentally equal
checksum) makes validation return false.  The validation computation
never reads byte 0 (the start marker): changing it from 0x02 to 0xFF
leaves the frame validating — and nothing about the checksum was
re-derived, the computation simply does not cover position 0. -/
theorem corrupt_start_byte_counterexample :
    checksumValidate [0x02, 0x10, 0x04, 0x00, 0x00, 0x02, 0x05, 0xE4] = true ∧
      (0xFF : ℕ) ≠ 0x02 ∧
      checksumValidate [0xFF, 0x10, 0x04, 0x00, 0x00, 0x02, 0x05, 0xE4] =
        true := by decide

/-- C5 (amended): for every 8-byte frame with size byte 4 that passes
checksum validation, changing any single byte at positions 1-7 to any
different value makes validation return false — unconditionally, with
no coincidental-collision exception, because the code compares the
transmitted byte against an exact (non-wrapping) integer expression;
while changing the start byte (position 0) to any value never affects
the verdict, because validation never reads it. -/
theorem corrupt_byte_detected (b0 b1 b3 b4 b5 b6 b7 : ℕ)
    (hvalid : checksumValidate [b0, b1, 4, b3, b4, b5, b6, b7] = true) :
    (∀ i v : ℕ, 1 ≤ i → i ≤ 7 →
        v ≠ [b0, b1, 4, b3, b4, b5, b6, b7].getD i 0 →
        checksumValidate ([b0, b1, 4, b3, b4, b5, b6, b7].set i v) = false) ∧
    (∀ v : ℕ,
        checksumValidate ([b0, b1, 4, b3, b4, b5, b6, b7].set 0 v) = true) := by
  rw [checksumValidate_cons] at hvalid
  have hP := of_decide_eq_true hvalid
  rw [show (([4, b3, b4, b5, b6, b7] : List ℕ).getLastD 0) = b7 from rfl,
      show (([b3, b4, b5, b6, b7] : List ℕ).take 4) = [b3, b4, b5, b6] from rfl,
      show (([b3, b4, b5, b6] : List ℕ).sum) = b3 + (b4 + (b5 + (b6 + 0)))
        from rfl] at hP
  constructor
  · intro i v hi1 hi7 hne
    interval_cases i
    · have hne' : v ≠ b1 := hne
      rw [show ([b0, b1, 4, b3, b4, b5, b6, b7].set 1 v) =
            [b0, v, 4, b3, b4, b5, b6, b7] from rfl, checksumValidate_cons]
      apply decide_eq_false
      intro hQ
      rw [show (([4, b3, b4, b5, b6, b7] : List ℕ).getLastD 0) = b7 from rfl,
          show (([b3, b4, b5, b6, b7] : List ℕ).take 4) = [b3, b4, b5, b6]
            from rfl,
          show (([b3, b4, b5, b6] : List ℕ).sum) = b3 + (b4 + (b5 + (b6 + 0)))
            from rfl] at hQ
      omega
    · have hne' : v ≠ 4 := hne
      rw [show ([b0, b1, 4, b3, b4, b5, b6, b7].set 2 v) =
            [b0, b1, v, b3, b4, b5, b6, b7] from rfl, checksumValidate_cons]
      apply decide_eq_false
      intro hQ
      rw [show ((v :: [b3, b4, b5, b6, b7]).getLastD 0) = b7 from rfl] at hQ
      by_cases hv5 : 5 ≤ v
      · rw [List.take_of_length_le (by simpa using hv5),
            show (([b3, b4, b5, b6, b7] : List ℕ).sum) =
              b3 + (b4 + (b5 + (b6 + (b7 + 0)))) from rfl] at hQ
        omega
      · have hv4 : v ≤ 4 := by omega
        interval_cases v
        · rw [show (([b3, b4, b5, b6, b7] : List ℕ).take 0) = [] from rfl,
              show (([] : List ℕ).sum) = 0 from rfl] at hQ
          omega
        · rw [show (([b3, b4, b5, b6, b7] : List ℕ).take 1) = [b3] from rfl,
              show (([b3] : List ℕ).sum) = b3 + 0 from rfl] at hQ
          omega
        · rw [show (([b3, b4, b5, b6, b7] : List ℕ).take 2) = [b3, b4]
                from rfl,
              show (([b3, b4] : List ℕ).sum) = b3 + (b4 + 0) from rfl] at hQ
          omega
        · rw [show (([b3, b4, b5, b6, b7] : List ℕ).take 3) = [b3, b4, b5]
                from rfl,
              show (([b3, b4, b5] : List ℕ).sum) = b3 + (b4 + (b5 + 0))
                from rfl] at hQ
          omega
        · omega
    · have hne' : v ≠ b3 := hne
      rw [show ([b0, b1, 4, b3, b4, b5, b6, b7].set 3 v) =
            [b0, b1, 4, v, b4, b5, b6, b7] from rfl, checksumValidate_cons]
      apply decide_eq_false
      intro hQ
      rw [show (([4, v, b4, b5, b6, b7] : List ℕ).getLastD 0) = b7 from rfl,
          show (([v, b4, b5, b6, b7] : List ℕ).take 4) = [v, b4, b5, b6]
            from rfl,
          show (([v, b4, b5, b6] : List ℕ).sum) = v + (b4 + (b5 + (b6 + 0)))
            from rfl] at hQ
      omega
    · have hne' : v ≠ b4 := hne
      rw [show ([b0, b1, 4, b3, b4, b5, b6, b7].set 4 v) =
            [b0, b1, 4, b3, v, b5, b6, b7] from rfl, checksumValidate_cons]
      apply decide_eq_false
      intro hQ
      rw [show (([4, b3, v, b5, b6, b7] : List ℕ).getLastD 0) = b7 from rfl,
          show (([b3, v, b5, b6, b7] : List ℕ).take 4) = [b3, v, b5, b6]
            from rfl,
          show (([b3, v, b5, b6] : List ℕ).sum) = b3 + (v + (b5 + (b6 + 0)))
            from rfl] at hQ
      omega
    · have hne' : v ≠ b5 := hne
      rw [show ([b0, b1, 4, b3, b4, b5, b6, b7].set 5 v) =
            [b0, b1, 4, b3, b4, v, b6, b7] from rfl, checksumValidate_cons]
      apply decide_eq_false
      intro hQ
      rw [show (([4, b3, b4, v, b6, b7] : List ℕ).getLastD 0) = b7 from rfl,
          show (([b3, b4, v, b6, b7] : List ℕ).take 4) = [b3, b4, v, b6]
            from rfl,
          show (([b3, b4, v, b6] : List ℕ).sum) = b3 + (b4 + (v + (b6 + 0)))
            from rfl] at hQ
      omega
    · have hne' : v ≠ b6 := hne
      rw [show ([b0, b1, 4, b3, b4, b5, b6, b7].set 6 v) =
            [b0, b1, 4, b3, b4, b5, v, b7] from rfl, checksumValidate_cons]
      apply decide_eq_false
      intro hQ
      rw [show (([4, b3, b4, b5, v, b7] : List ℕ).getLastD 0) = b7 from rfl,
          show (([b3, b4, b5, v, b7] : List ℕ).take 4) = [b3, b4, b5, v]
            from rfl,
          show (([b3, b4, b5, v] : List ℕ).sum) = b3 + (b4 + (b5 + (v + 0)))
            from rfl] at hQ
      omega
    · have hne' : v ≠ b7 := hne
      rw [show ([b0, b1, 4, b3, b4, b5, b6, b7].set 7 v) =
            [b0, b1, 4, b3, b4, b5, b6, v] from rfl, checksumValidate_cons]
      apply decide_eq_false
      intro hQ
      rw [show (([4, b3, b4, b5, b6, v] : List ℕ).getLastD 0) = v from rfl,
          show (([b3, b4, b5, b6, v] : List ℕ).take 4) = [b3, b4, b5, b6]
            from rfl,
          show (([b3, b4, b5, b6] : List ℕ).sum) = b3 + (b4 + (b5 + (b6 + 0)))
            from rfl] at hQ
      omega
  · intro v
    rw [show ([b0, b1, 4, b3, b4, b5, b6, b7].set 0 v) =
          [v, b1, 4, b3, b4, b5, b6, b7] from rfl, checksumValidate_cons]
    apply decide_eq_true
    rw [show (([4, b3, b4, b5, b6, b7] : List ℕ).getLastD 0) = b7 from rfl,
        show (([b3, b4, b5, b6, b7] : List ℕ).take 4) = [b3, b4, b5, b6]
          from rfl,
        show (([b3, b4, b5, b6] : List ℕ).sum) = b3 + (b4 + (b5 + (b6 + 0)))
          from rfl]
    omega

theorem corrupt_byte_detected_witness :
    checksumValidate
        ([0x02, 0x10, 0x04, 0x00, 0x00, 0x02, 0x05, 0xE4].set 7 0) = false ∧
      checksumValidate
        ([0x02, 0x10, 0x04, 0x00, 0x00, 0x02, 0x05, 0xE4].set 0 0xFF) =
          true :=
  ⟨(corrupt_byte_detected 2 16 0 0 2 5 228 (by decide)).1 7 0 (by omega)
      (by omega) (by decide),
   (corrupt_byte_detected 2 16 0 0 2 5 228 (by decide)).2 0xFF⟩

end RD200M
